import Mathlib

/-!
Verification of the web-configuration module (management/web_update.py).

The Python module is shallowly embedded below.  External collaborators
(filesystem, mail-domain provider, custom-DNS provider, yaml parser,
certificate checker, shell) are modelled as explicit inputs:

* the filesystem is a map from path to optional content,
* side effects (file writes, directory creation, shell invocations) are
  returned as an explicit event trace,
* functions of the repository that live outside this module
  (utils.sort_domains, utils.safe_domain_name, whats_next.check_certificate,
  rtyaml.load) are modelled from the spec, as documented on each definition.
-/

namespace WebUpdate

/-! ## String machinery

Python string primitives used by the module, re-implemented on `List Char`
so that they compute by kernel reduction:

* `str.replace` (left-to-right, non-overlapping) as `strReplace`,
* `re.split` with a capturing literal-pattern group (which keeps the
  separator in the result list) as `reSplitCapture`,
* `"".join` as `joinParts`.
-/

/-- Prepend a chunk of characters onto the first part of a split result. -/
def consHead (a : List Char) : List (List Char) → List (List Char)
  | [] => [a]
  | p :: ps => (a ++ p) :: ps

/-- Split a character list at every (non-overlapping, leftmost) occurrence of
the pattern.  The `Nat` argument is fuel; `splitOnList` supplies `l.length`,
which always suffices because every step consumes at least one character. -/
def splitAux (pat : List Char) : Nat → List Char → List (List Char)
  | _, [] => [[]]
  | 0, l => [l]
  | fuel + 1, c :: cs =>
    if pat.isPrefixOf (c :: cs) && !pat.isEmpty then
      [] :: splitAux pat fuel ((c :: cs).drop pat.length)
    else
      consHead [c] (splitAux pat fuel cs)

/-- Split a character list on a pattern (the pieces between occurrences). -/
def splitOnList (pat l : List Char) : List (List Char) := splitAux pat l.length l

/-- Join parts with a separator (inverse of `splitOnList`). -/
def joinWithL (sep : List Char) : List (List Char) → List Char
  | [] => []
  | [x] => x
  | x :: xs => x ++ sep ++ joinWithL sep xs

/-- Python `s.replace(pat, rep)`: replace every occurrence, left to right. -/
def strReplace (s pat rep : String) : String :=
  String.mk (joinWithL rep.data (splitOnList pat.data s.data))

/-- Interleave the separator between consecutive parts (keeping it as its own
list element), as a capturing group in `re.split` does. -/
def withSep (sep : List Char) : List (List Char) → List (List Char)
  | [] => []
  | [x] => [x]
  | x :: xs => x :: sep :: withSep sep xs

/-- Python `re.split("(pat)", s)` for a literal pattern `pat`: the pieces
between occurrences, with each occurrence itself kept in the list. -/
def reSplitCapture (pat s : String) : List String :=
  (withSep pat.data (splitOnList pat.data s.data)).map String.mk

/-- Python `"".join(parts)`. -/
def joinParts : List String → String
  | [] => ""
  | p :: ps => p ++ joinParts ps

/-- Lexicographic comparison of character lists (by Unicode scalar value). -/
def lexLe : List Char → List Char → Bool
  | [], _ => true
  | _ :: _, [] => false
  | a :: as, b :: bs => if a = b then lexLe as bs else decide (a < b)

/-! ## Data model -/

/-- The environment record: the configuration keys the module reads. -/
structure Env where
  PRIMARY_HOSTNAME : String
  STORAGE_ROOT : String
  CSR_COUNTRY : String

/-- A value of the custom-DNS override table: either a plain string or a
record mapping with optional A / AAAA entries (other record keys are
irrelevant to this module and omitted). -/
inductive DNSValue where
  | plain (s : String)
  | record (a aaaa : Option String)
deriving DecidableEq

/-- A parsed yaml document, as far as this module inspects one: a string or a
string-keyed mapping. -/
inductive Yaml where
  | str (s : String)
  | dict (entries : List (String × Yaml))

/-- Key lookup in an association list of yaml entries. -/
def lookupEntries : List (String × Yaml) → String → Option Yaml
  | [], _ => none
  | (k, v) :: rest, key => if k = key then some v else lookupEntries rest key

/-- Python `key in yaml` / `yaml[key]` on a parsed document (the module only
indexes into mappings). -/
def Yaml.lookupKey : Yaml → String → Option Yaml
  | .str _, _ => none
  | .dict es, key => lookupEntries es key

/-- Python `"%s" % v` for a yaml value.  Modelled from the spec: the overlay
`proxy` field is a string (a URL / address to proxy requests to). -/
def Yaml.toStr : Yaml → String
  | .str s => s
  | .dict _ => ""

/-- An externally observable side effect of the module. -/
inductive Event where
  | write (path content : String)
  | mkdirs (path : String)
  | shell (args : List String)
deriving DecidableEq

/-- The world the module runs against.

`files` maps a path to its content when something exists there (`none` means
`os.path.exists` is false).  The remaining fields model repository functions
that are outside this module:

* `safe_domain_name` — Modelled from the spec: utils.safe_domain_name, a
  filesystem-safe path component derived from a domain name.
* `check_certificate` — Modelled from the spec: whats_next.check_certificate,
  the external certificate-coverage checker; the module only compares its
  result against the string "OK".  (The third Python argument, always None at
  this call site, is dropped.)
* `load_yaml` — Modelled from the spec: rtyaml.load, parsing raw file content
  into a structured document. -/
structure World where
  files : String → Option String
  safe_domain_name : String → String
  check_certificate : String → String → String
  load_yaml : String → Yaml

/-- `os.path.join` for the relative second components used by this module. -/
def pjoin (a b : String) : String := a ++ "/" ++ b

/-- Interpret an event trace back onto a world: file writes update the
filesystem; directory creation and shell invocations are external effects the
module never reads back. -/
def applyEvent (w : World) (e : Event) : World :=
  match e with
  | .write p c => { w with files := fun q => if q = p then some c else w.files q }
  | _ => w

/-- Replay a whole event trace onto a world. -/
def applyEvents (w : World) (es : List Event) : World := es.foldl applyEvent w

/-! ## Domain selection (get_web_domains, source lines 11-39) -/

/-- Source lines 30-32: an override value maps the domain to a different IP
address than this box (a plain value other than "local", or a record whose A
or AAAA entry is present and not "local"). -/
def resolves_away : DNSValue → Bool
  | .plain s => s != "local"
  | .record a aaaa =>
    (match a with | some x => x != "local" | none => false) ||
    (match aaaa with | some x => x != "local" | none => false)

/-- The "local" sentinel, following the spec words: a plain value equal to
"local", or a record whose A/AAAA entries, where present, equal "local". -/
def local_sentinel : DNSValue → Bool
  | .plain s => s == "local"
  | .record a aaaa =>
    (match a with | some x => x == "local" | none => true) &&
    (match aaaa with | some x => x == "local" | none => true)

/-- Insertion step of the deterministic secondary sort. -/
def insertSorted (d : String) : List String → List String
  | [] => [d]
  | x :: xs => if lexLe d.data x.data then d :: x :: xs else x :: insertSorted d xs

/-- Deterministic (lexicographic) sort of a list of domains. -/
def sortLex : List String → List String
  | [] => []
  | x :: xs => insertSorted x (sortLex xs)

/-- Modelled from the spec: utils.sort_domains (outside this module).  Spec
4.1 step 3: sort the remaining set with the primary hostname forced first,
the remainder in a deterministic secondary (lexicographic) order. -/
def sort_domains (domains : List String) (env : Env) : List String :=
  let rest := sortLex (domains.filter (fun d => d != env.PRIMARY_HOSTNAME))
  if env.PRIMARY_HOSTNAME ∈ domains then env.PRIMARY_HOSTNAME :: rest else rest

/-- One iteration of the removal loop at source lines 28-33: a domain in the
set whose override resolves it away is removed. -/
def dnsFilterStep (ds : List String) (entry : String × DNSValue) : List String :=
  if entry.1 ∈ ds then
    (if resolves_away entry.2 then ds.erase entry.1 else ds)
  else ds

/-- Source lines 11-39.  `mail_domains` is the result of the external
mail-domain provider and `dns` the custom DNS override table (a Python dict,
modelled as an association list in insertion order). -/
def get_web_domains (env : Env) (mail_domains : List String)
    (dns : List (String × DNSValue)) : List String :=
  let domains := (env.PRIMARY_HOSTNAME :: mail_domains).dedup
  let domains := dns.foldl dnsFilterStep domains
  sort_domains domains env

/-! ## Web root and SSL material (source lines 105-148) -/

/-- Source lines 105-110: prefer the domain-specific web root when it exists;
otherwise the path of the shared default root (whether or not it exists). -/
def get_web_root (domain : String) (env : Env) (w : World) : String :=
  let r1 := pjoin env.STORAGE_ROOT ("www/" ++ w.safe_domain_name domain)
  if (w.files r1).isSome then r1
  else pjoin env.STORAGE_ROOT ("www/" ++ w.safe_domain_name "default")

/-- Source lines 112-148: resolve (private key path, certificate path, CSR
path) for a domain. -/
def get_domain_ssl_files (domain : String) (env : Env) (w : World) :
    String × String × String :=
  let alt_key := pjoin env.STORAGE_ROOT
    ("ssl/" ++ w.safe_domain_name domain ++ "/private_key.pem")
  let ssl_key_is_alt :=
    domain != env.PRIMARY_HOSTNAME && (w.files alt_key).isSome
  let ssl_key :=
    if ssl_key_is_alt then alt_key
    else pjoin env.STORAGE_ROOT "ssl/ssl_private_key.pem"
  let ssl_certificate_primary := pjoin env.STORAGE_ROOT "ssl/ssl_certificate.pem"
  let ssl_certificate :=
    if domain == env.PRIMARY_HOSTNAME then ssl_certificate_primary
    else
      if !ssl_key_is_alt &&
          (w.check_certificate domain ssl_certificate_primary == "OK") then
        ssl_certificate_primary
      else
        pjoin env.STORAGE_ROOT
          ("ssl/" ++ w.safe_domain_name domain ++ "/ssl_certificate.pem")
  let csr_path :=
    if domain == env.PRIMARY_HOSTNAME then
      pjoin env.STORAGE_ROOT "ssl/ssl_cert_sign_req.csr"
    else
      pjoin env.STORAGE_ROOT
        ("ssl/" ++ w.safe_domain_name domain ++ "/certificate_signing_request.csr")
  (ssl_key, ssl_certificate, csr_path)

/-! ## Certificate provisioning (source lines 150-182) -/

/-- Python `os.path.dirname`. -/
def dirname (p : String) : String :=
  String.mk (((p.data.reverse.dropWhile (fun c => c ≠ '/')).drop 1).reverse)

/-- The CSR-generation shell invocation (source lines 170-174). -/
def csrShellCall (domain ssl_key csr_path : String) (env : Env) : Event :=
  Event.shell ["openssl", "req", "-new",
    "-key", ssl_key,
    "-out", csr_path,
    "-subj", "/C=" ++ env.CSR_COUNTRY ++ "/ST=/L=/O=/CN=" ++ domain]

/-- The self-sign shell invocation (source lines 177-182). -/
def signShellCall (ssl_key ssl_certificate csr_path : String) : Event :=
  Event.shell ["openssl", "x509", "-req",
    "-days", "365",
    "-in", csr_path,
    "-signkey", ssl_key,
    "-out", ssl_certificate]

/-- Source lines 150-182: generate a self-signed certificate for a
non-primary domain when none exists; the returned trace lists the external
effects performed. -/
def ensure_ssl_certificate_exists (domain ssl_key ssl_certificate csr_path : String)
    (env : Env) (w : World) : List Event :=
  if domain == env.PRIMARY_HOSTNAME then []
  else if ssl_certificate == pjoin env.STORAGE_ROOT "ssl/ssl_certificate.pem" then []
  else if (w.files ssl_certificate).isSome then []
  else
    [Event.mkdirs (dirname ssl_certificate),
     csrShellCall domain ssl_key csr_path env,
     signShellCall ssl_key ssl_certificate csr_path]

/-! ## Per-domain configuration (make_domain_config, source lines 69-103) -/

/-- The customization marker line in the template. -/
def directivesMarker : String := "# ADDITIONAL DIRECTIVES HERE\n"

/-- The inserted reverse-proxy block (source line 98). -/
def proxyBlock (target : String) : String :=
  "\tlocation / \x7b\n\t\tproxy_pass " ++ target ++ ";\n\t\x7d\n"

/-- Source lines 92-96: the overlay entry for a domain, when the overlay file
exists and its parsed content has one. -/
def overlay_entry (env : Env) (w : World) (domain : String) : Option Yaml :=
  match w.files (pjoin env.STORAGE_ROOT "www/custom.yaml") with
  | none => none
  | some raw => (w.load_yaml raw).lookupKey domain

/-- Source lines 84-88: the four placeholder substitutions applied to the
template. -/
def substTemplate (domain template : String) (env : Env) (w : World) : String :=
  let conf := strReplace template "$HOSTNAME" domain
  let conf := strReplace conf "$ROOT" (get_web_root domain env w)
  let conf := strReplace conf "$SSL_KEY" (get_domain_ssl_files domain env w).1
  strReplace conf "$SSL_CERTIFICATE" (get_domain_ssl_files domain env w).2.1

/-- Source lines 69-103: render the configuration block of one domain; `none`
models the IndexError raised at line 98 when the marker is absent from the
substituted template but an overlay proxy entry applies. -/
def make_domain_config (domain template : String) (env : Env) (w : World) :
    Option (String × List Event) :=
  let ssl := get_domain_ssl_files domain env w
  let ev := ensure_ssl_certificate_exists domain ssl.1 ssl.2.1 ssl.2.2 env w
  let parts := reSplitCapture directivesMarker (substTemplate domain template env w)
  match overlay_entry env w domain with
  | some entry =>
    match entry.lookupKey "proxy" with
    | some p =>
      if h : 1 < parts.length then
        some (joinParts (parts.set 1 (parts.get ⟨1, h⟩ ++ proxyBlock p.toStr)), ev)
      else none
    | none => some (joinParts parts, ev)
  | none => some (joinParts parts, ev)

/-! ## Full update (do_web_update, source lines 41-67) -/

/-- The persisted configuration path (source line 51). -/
def nginxConfFn : String := "/etc/nginx/conf.d/local.conf"

/-- The nginx reload invocation (source line 65). -/
def reloadEvent : Event := Event.shell ["/usr/sbin/service", "nginx", "reload"]

/-- One step of the accumulation loop at source lines 47-48. -/
def buildStep (env : Env) (w : World) (template : String)
    (acc : String × List Event) (domain : String) : Option (String × List Event) :=
  match make_domain_config domain template env w with
  | none => none
  | some (s, ev) => some (acc.1 ++ s, acc.2 ++ ev)

/-- Source lines 41-48: read the preamble and the per-domain template, then
concatenate the preamble with the rendered block of every selected domain; a
missing file propagates as a fatal error (`none`). -/
def build_nginx_conf (env : Env) (mail_domains : List String)
    (dns : List (String × DNSValue)) (w : World) : Option (String × List Event) :=
  match w.files "conf/nginx-top.conf", w.files "conf/nginx.conf" with
  | some top, some template =>
    (get_web_domains env mail_domains dns).foldlM (buildStep env w template) (top, [])
  | _, _ => none

/-- Source lines 41-67: build the configuration, compare it byte-for-byte
with the persisted file, and when it differs write it and reload nginx.  The
returned string is the Python return value of the function; the trace lists all
external effects in order. -/
def do_web_update (env : Env) (mail_domains : List String)
    (dns : List (String × DNSValue)) (w : World) : Option (String × List Event) :=
  match build_nginx_conf env mail_domains dns w with
  | none => none
  | some (conf, ev) =>
    match w.files nginxConfFn with
    | some current =>
      if current = conf then some ("", ev)
      else some ("web updated\n", ev ++ [Event.write nginxConfFn conf, reloadEvent])
    | none => some ("web updated\n", ev ++ [Event.write nginxConfFn conf, reloadEvent])

/-! ## Basic facts -/

theorem data_append (a b : String) : (a ++ b).data = a.data ++ b.data := rfl

/-- The per-domain certificate path never collides with the primary
certificate path, whatever `safe_domain_name` returns (the lengths differ). -/
theorem perDomain_cert_ne_primary (SR s : String) :
    pjoin SR ("ssl/" ++ s ++ "/ssl_certificate.pem") ≠
      pjoin SR "ssl/ssl_certificate.pem" := by
  intro h
  have hd := congrArg (fun t => t.data.length) h
  simp only [pjoin, data_append, List.length_append] at hd
  simp only [List.length_cons, List.length_nil] at hd
  omega

/-- Recognizer for shell invocations in an event trace. -/
def isShell : Event → Bool
  | .shell _ => true
  | _ => false

/-! ## Claims about SSL material and provisioning -/

/-- C6: `ensure_ssl_certificate_exists` invokes the external tool iff the
domain is not the primary hostname, the resolved certificate path differs
from the fixed primary certificate path, and no file exists at the resolved
certificate path; otherwise it performs zero tool invocations.  When it does
invoke the tool it does so exactly twice: a CSR with common name equal to the
domain and country from configuration, then a self-signed certificate from
that CSR valid for 365 days. -/
theorem ensure_ssl_certificate_exists_shell_calls
    (domain ssl_key ssl_certificate csr_path : String) (env : Env) (w : World) :
    (ensure_ssl_certificate_exists domain ssl_key ssl_certificate csr_path env w).filter
        isShell =
      if domain ≠ env.PRIMARY_HOSTNAME ∧
          ssl_certificate ≠ pjoin env.STORAGE_ROOT "ssl/ssl_certificate.pem" ∧
          w.files ssl_certificate = none then
        [csrShellCall domain ssl_key csr_path env,
         signShellCall ssl_key ssl_certificate csr_path]
      else [] := by
  unfold ensure_ssl_certificate_exists
  by_cases h1 : domain = env.PRIMARY_HOSTNAME
  · simp [h1]
  · by_cases h2 : ssl_certificate = pjoin env.STORAGE_ROOT "ssl/ssl_certificate.pem"
    · simp [h1, h2]
    · by_cases h3 : w.files ssl_certificate = none
      · simp [h1, h2, h3, List.filter, isShell, csrShellCall, signShellCall]
      · simp [h1, h2, h3, Option.isSome_iff_ne_none]

/-- C7: for the primary hostname, `get_domain_ssl_files` returns the fixed
shared key path, the fixed primary certificate path and the fixed primary CSR
path regardless of any per-domain key file; a per-domain key override is
honoured only for non-primary domains. -/
theorem get_domain_ssl_files_primary (domain : String) (env : Env) (w : World) :
    (domain = env.PRIMARY_HOSTNAME →
      get_domain_ssl_files domain env w =
        (pjoin env.STORAGE_ROOT "ssl/ssl_private_key.pem",
         pjoin env.STORAGE_ROOT "ssl/ssl_certificate.pem",
         pjoin env.STORAGE_ROOT "ssl/ssl_cert_sign_req.csr")) ∧
    (domain ≠ env.PRIMARY_HOSTNAME →
      (w.files (pjoin env.STORAGE_ROOT
          ("ssl/" ++ w.safe_domain_name domain ++ "/private_key.pem"))).isSome →
      (get_domain_ssl_files domain env w).1 =
        pjoin env.STORAGE_ROOT
          ("ssl/" ++ w.safe_domain_name domain ++ "/private_key.pem")) := by
  constructor
  · intro h
    unfold get_domain_ssl_files
    simp [h]
  · intro h halt
    unfold get_domain_ssl_files
    simp [h, halt]

/-- C8: for a non-primary domain, the certificate is the primary certificate
path iff no per-domain key file exists and the external coverage checker
reports "OK" on the primary certificate; otherwise it is the per-domain
certificate path; the CSR path is always the per-domain CSR path. -/
theorem get_domain_ssl_files_nonprimary (domain : String) (env : Env) (w : World)
    (h : domain ≠ env.PRIMARY_HOSTNAME) :
    ((get_domain_ssl_files domain env w).2.1 =
        pjoin env.STORAGE_ROOT "ssl/ssl_certificate.pem" ↔
      (w.files (pjoin env.STORAGE_ROOT
          ("ssl/" ++ w.safe_domain_name domain ++ "/private_key.pem")) = none ∧
       w.check_certificate domain
          (pjoin env.STORAGE_ROOT "ssl/ssl_certificate.pem") = "OK")) ∧
    ((w.files (pjoin env.STORAGE_ROOT
          ("ssl/" ++ w.safe_domain_name domain ++ "/private_key.pem")) ≠ none ∨
      w.check_certificate domain
          (pjoin env.STORAGE_ROOT "ssl/ssl_certificate.pem") ≠ "OK") →
      (get_domain_ssl_files domain env w).2.1 =
        pjoin env.STORAGE_ROOT
          ("ssl/" ++ w.safe_domain_name domain ++ "/ssl_certificate.pem")) ∧
    (get_domain_ssl_files domain env w).2.2 =
      pjoin env.STORAGE_ROOT
        ("ssl/" ++ w.safe_domain_name domain ++ "/certificate_signing_request.csr") := by
  unfold get_domain_ssl_files
  by_cases halt : w.files (pjoin env.STORAGE_ROOT
      ("ssl/" ++ w.safe_domain_name domain ++ "/private_key.pem")) = none
  · by_cases hok : w.check_certificate domain
        (pjoin env.STORAGE_ROOT "ssl/ssl_certificate.pem") = "OK"
    · simp [h, halt, hok]
    · simp [h, halt, hok, perDomain_cert_ne_primary]
  · simp [h, halt, Option.isSome_iff_ne_none, perDomain_cert_ne_primary]

/-- Concrete environment used by witnesses. -/
def envA : Env := ⟨"box.example.com", "st", "US"⟩

/-- Concrete world used by witnesses: nothing on disk, identity
`safe_domain_name`, coverage checker always answering "OK". -/
def wA : World := ⟨fun _ => none, fun d => d, fun _ _ => "OK", fun _ => Yaml.str ""⟩

/-- Witness for C7 at a concrete input. -/
theorem get_domain_ssl_files_primary_witness :
    get_domain_ssl_files "box.example.com" envA wA =
      (pjoin envA.STORAGE_ROOT "ssl/ssl_private_key.pem",
       pjoin envA.STORAGE_ROOT "ssl/ssl_certificate.pem",
       pjoin envA.STORAGE_ROOT "ssl/ssl_cert_sign_req.csr") :=
  (get_domain_ssl_files_primary "box.example.com" envA wA).1 rfl

/-- Witness for C8 at a concrete input. -/
theorem get_domain_ssl_files_nonprimary_witness :
    ("other.example.com" ≠ envA.PRIMARY_HOSTNAME) ∧
    (get_domain_ssl_files "other.example.com" envA wA).2.2 =
      pjoin envA.STORAGE_ROOT
        ("ssl/" ++ wA.safe_domain_name "other.example.com" ++
          "/certificate_signing_request.csr") :=
  ⟨by decide,
   (get_domain_ssl_files_nonprimary "other.example.com" envA wA (by decide)).2.2⟩

/-! ## Claims about domain selection -/

theorem mem_insertSorted (d x : String) (l : List String) :
    d ∈ insertSorted x l ↔ d = x ∨ d ∈ l := by
  induction l with
  | nil => simp [insertSorted]
  | cons y ys ih =>
    by_cases h : lexLe x.data y.data
    · simp [insertSorted, h]
    · simp [insertSorted, h, ih]
      tauto

theorem mem_sortLex (d : String) (l : List String) : d ∈ sortLex l ↔ d ∈ l := by
  induction l with
  | nil => simp [sortLex]
  | cons x xs ih => simp [sortLex, mem_insertSorted, ih]

theorem mem_sort_domains (d : String) (l : List String) (env : Env) :
    d ∈ sort_domains l env ↔ d ∈ l := by
  unfold sort_domains
  by_cases hp : env.PRIMARY_HOSTNAME ∈ l
  · by_cases hd : d = env.PRIMARY_HOSTNAME
    · simp [hp, hd]
    · simp [hp, hd, mem_sortLex, List.mem_filter, bne_iff_ne]
  · by_cases hd : d = env.PRIMARY_HOSTNAME
    · subst hd
      simp [hp, mem_sortLex, List.mem_filter]
    · simp [hp, hd, mem_sortLex, List.mem_filter, bne_iff_ne]

theorem nodup_dnsFilterStep (ds : List String) (e : String × DNSValue)
    (h : ds.Nodup) : (dnsFilterStep ds e).Nodup := by
  unfold dnsFilterStep
  split
  · split
    · exact h.erase e.1
    · exact h
  · exact h

theorem mem_foldl_dnsFilterStep (dns : List (String × DNSValue)) :
    ∀ init : List String, init.Nodup → ∀ d : String,
      (d ∈ dns.foldl dnsFilterStep init ↔
        d ∈ init ∧ ∀ p ∈ dns, p.1 = d → resolves_away p.2 = false) := by
  induction dns with
  | nil => simp
  | cons e rest ih =>
    intro init hinit d
    rw [List.foldl_cons, ih (dnsFilterStep init e) (nodup_dnsFilterStep init e hinit) d]
    unfold dnsFilterStep
    by_cases hmem : e.1 ∈ init
    · by_cases hres : resolves_away e.2
      · simp only [hmem, if_pos, hres, if_true, hinit.mem_erase_iff, List.mem_cons]
        constructor
        · rintro ⟨⟨hne, hd⟩, hall⟩
          refine ⟨hd, ?_⟩
          rintro p (rfl | hp)
          · intro hpd
            exact absurd hpd.symm hne
          · exact hall p hp
        · rintro ⟨hd, hall⟩
          refine ⟨⟨?_, hd⟩, fun p hp => hall p (Or.inr hp)⟩
          intro hde
          have := hall e (Or.inl rfl) hde.symm
          rw [this] at hres
          exact Bool.false_ne_true hres
      · simp only [hmem, if_pos, hres, if_false, List.mem_cons]
        have hres' : resolves_away e.2 = false := by
          revert hres
          cases resolves_away e.2 <;> simp
        constructor
        · rintro ⟨hd, hall⟩
          refine ⟨hd, ?_⟩
          rintro p (rfl | hp)
          · intro _; exact hres'
          · exact hall p hp
        · rintro ⟨hd, hall⟩
          exact ⟨hd, fun p hp => hall p (Or.inr hp)⟩
    · simp only [hmem, if_neg, if_false, List.mem_cons, not_false_iff]
      constructor
      · rintro ⟨hd, hall⟩
        refine ⟨hd, ?_⟩
        rintro p (rfl | hp)
        · rintro rfl; exact absurd hd hmem
        · exact hall p hp
      · rintro ⟨hd, hall⟩
        exact ⟨hd, fun p hp => hall p (Or.inr hp)⟩

theorem local_sentinel_eq_not_resolves_away (v : DNSValue) :
    local_sentinel v = !resolves_away v := by
  cases v with
  | plain s => simp [local_sentinel, resolves_away, bne]
  | record a aaaa =>
    cases a <;> cases aaaa <;> simp [local_sentinel, resolves_away, bne]

theorem entries_iff_lookup (dns : List (String × DNSValue))
    (hnd : (dns.map Prod.fst).Nodup) (d : String) :
    (∀ p ∈ dns, p.1 = d → resolves_away p.2 = false) ↔
    (∀ v, List.lookup d dns = some v → local_sentinel v = true) := by
  induction dns with
  | nil => simp
  | cons e rest ih =>
    obtain ⟨k, v⟩ := e
    simp only [List.map_cons, List.nodup_cons] at hnd
    obtain ⟨hk, hrest⟩ := hnd
    by_cases hdk : d = k
    · subst hdk
      have hbeq : (d == d) = true := beq_self_eq_true d
      simp only [List.lookup, hbeq]
      constructor
      · intro hall v' hv'
        injection hv' with hv'
        subst hv'
        have := hall (d, v) (List.mem_cons_self _ _) rfl
        rw [local_sentinel_eq_not_resolves_away, this]
        rfl
      · intro hs
        rintro p hp hpd
        rcases List.mem_cons.mp hp with rfl | hp'
        · have := hs v rfl
          rw [local_sentinel_eq_not_resolves_away] at this
          revert this
          cases resolves_away v <;> simp
        · exfalso
          apply hk
          rw [← hpd]
          exact List.mem_map.mpr ⟨p, hp', rfl⟩
    · have hbeq : (d == k) = false := beq_eq_false_iff_ne.mpr hdk
      simp only [List.lookup, hbeq]
      rw [← ih hrest]
      constructor
      · intro hall p hp hpd
        exact hall p (List.mem_cons.mpr (Or.inr hp)) hpd
      · rintro hall p hp hpd
        rcases List.mem_cons.mp hp with rfl | hp'
        · exact absurd hpd.symm hdk
        · exact hall p hp' hpd

/-- C1: a domain appears in `get_web_domains` iff it is the primary hostname
or a mail domain, and its override in the custom DNS table, if any, is
exactly the "local" sentinel.  The table is a Python dict, so its keys are
assumed distinct. -/
theorem get_web_domains_membership (env : Env) (mail_domains : List String)
    (dns : List (String × DNSValue)) (hnd : (dns.map Prod.fst).Nodup) (d : String) :
    d ∈ get_web_domains env mail_domains dns ↔
      (d = env.PRIMARY_HOSTNAME ∨ d ∈ mail_domains) ∧
      (∀ v, List.lookup d dns = some v → local_sentinel v = true) := by
  unfold get_web_domains
  rw [mem_sort_domains,
    mem_foldl_dnsFilterStep dns _ (List.nodup_dedup _) d,
    List.mem_dedup, List.mem_cons, entries_iff_lookup dns hnd d]

/-- Witness mail-domain list for C1. -/
def mailC : List String := ["m.example.com", "x.example.com"]

/-- Witness DNS override table for C1. -/
def dnsC : List (String × DNSValue) :=
  [("m.example.com", DNSValue.plain "local"),
   ("x.example.com", DNSValue.record (some "1.2.3.4") none)]

/-- Witness for C1 at a concrete input. -/
theorem get_web_domains_membership_witness :
    (dnsC.map Prod.fst).Nodup ∧
    ("m.example.com" ∈ get_web_domains envA mailC dnsC ↔
      ("m.example.com" = envA.PRIMARY_HOSTNAME ∨ "m.example.com" ∈ mailC) ∧
      (∀ v, List.lookup "m.example.com" dnsC = some v → local_sentinel v = true)) :=
  ⟨by decide, get_web_domains_membership envA mailC dnsC (by decide) "m.example.com"⟩

/-- Witness DNS override table resolving the primary hostname away. -/
def dnsB : List (String × DNSValue) := [("box.example.com", DNSValue.plain "1.2.3.4")]

/-- C2 counterexample: when the primary hostname has a DNS override mapping
it to another address, it is not in the list `get_web_domains` returns at
all, so it is not always present. -/
theorem get_web_domains_primary_absent :
    envA.PRIMARY_HOSTNAME ∉ get_web_domains envA [] dnsB := by decide

/-- C2 (amended): whenever the primary hostname is selected at all — which
fails only when a DNS override resolves it away — it is the first element of
the list `get_web_domains` returns. -/
theorem get_web_domains_primary_first (env : Env) (mail_domains : List String)
    (dns : List (String × DNSValue))
    (h : env.PRIMARY_HOSTNAME ∈ get_web_domains env mail_domains dns) :
    (get_web_domains env mail_domains dns).head? = some env.PRIMARY_HOSTNAME := by
  unfold get_web_domains at h ⊢
  rw [mem_sort_domains] at h
  simp [sort_domains, h]

/-- Witness for the amended C2 theorem at a concrete input. -/
theorem get_web_domains_primary_first_witness :
    envA.PRIMARY_HOSTNAME ∈ get_web_domains envA [] [] ∧
    (get_web_domains envA [] []).head? = some envA.PRIMARY_HOSTNAME :=
  ⟨by decide, get_web_domains_primary_first envA [] [] (by decide)⟩

/-! ## Properties of the string machinery -/

theorem isPrefixOf_true_iff {l1 l2 : List Char} :
    l1.isPrefixOf l2 = true ↔ l1 <+: l2 :=
  List.isPrefixOf_iff_prefix

theorem mk_eq (l : List Char) (s : String) (h : l = s.data) : String.mk l = s := by
  cases s with
  | mk d => exact congrArg String.mk h

theorem splitAux_ne_nil (pat : List Char) (f : Nat) (l : List Char) :
    splitAux pat f l ≠ [] := by
  cases f with
  | zero => cases l <;> simp [splitAux]
  | succ f =>
    cases l with
    | nil => simp [splitAux]
    | cons c cs =>
      rw [splitAux]
      split
      · simp
      · unfold consHead
        split <;> simp

theorem consHead_consHead (a b : List Char) (xs : List (List Char)) :
    consHead a (consHead b xs) = consHead (a ++ b) xs := by
  cases xs <;> simp [consHead]

theorem consHead_nil_of_ne_nil (xs : List (List Char)) (h : xs ≠ []) :
    consHead [] xs = xs := by
  cases xs with
  | nil => exact absurd rfl h
  | cons p ps => simp [consHead]

theorem splitAux_fuel_irrel (pat : List Char) :
    ∀ f1 f2 l, l.length ≤ f1 → l.length ≤ f2 →
      splitAux pat f1 l = splitAux pat f2 l := by
  intro f1
  induction f1 with
  | zero =>
    intro f2 l h1 _
    have : l = [] := List.eq_nil_of_length_eq_zero (Nat.le_zero.mp h1)
    subst this
    cases f2 <;> simp [splitAux]
  | succ f1 ih =>
    intro f2 l h1 h2
    cases l with
    | nil => cases f2 <;> simp [splitAux]
    | cons c cs =>
      cases f2 with
      | zero => simp at h2
      | succ f2 =>
        rw [splitAux, splitAux]
        by_cases hg : (pat.isPrefixOf (c :: cs) && !pat.isEmpty) = true
        · rw [if_pos hg, if_pos hg]
          have hne : pat ≠ [] := by
            rcases Bool.and_eq_true_iff.mp hg with ⟨_, hemp⟩
            intro hnil
            rw [hnil] at hemp
            simp [List.isEmpty] at hemp
          have hlen : 1 ≤ pat.length := by
            cases pat with
            | nil => exact absurd rfl hne
            | cons p ps => simp
          have hd : ((c :: cs).drop pat.length).length ≤ f1 := by
            rw [List.length_drop]
            simp only [List.length_cons] at h1 ⊢
            omega
          have hd2 : ((c :: cs).drop pat.length).length ≤ f2 := by
            rw [List.length_drop]
            simp only [List.length_cons] at h2 ⊢
            omega
          rw [ih f2 _ hd hd2]
        · rw [if_neg hg, if_neg hg]
          simp only [List.length_cons] at h1 h2
          rw [ih f2 cs (by omega) (by omega)]

theorem joinWithL_consHead (sep a : List Char) (xs : List (List Char)) (h : xs ≠ []) :
    joinWithL sep (consHead a xs) = a ++ joinWithL sep xs := by
  cases xs with
  | nil => exact absurd rfl h
  | cons y ys =>
    cases ys with
    | nil => simp [consHead, joinWithL]
    | cons z zs => simp [consHead, joinWithL, List.append_assoc]

theorem splitOnList_append_left (p0 : Char) (pt A l : List Char) (h : p0 ∉ A) :
    splitOnList (p0 :: pt) (A ++ l) = consHead A (splitOnList (p0 :: pt) l) := by
  induction A with
  | nil =>
    rw [List.nil_append]
    exact (consHead_nil_of_ne_nil (splitOnList (p0 :: pt) l)
      (splitAux_ne_nil (p0 :: pt) l.length l)).symm
  | cons c A ih =>
    have hc : c ≠ p0 := fun hcp => h (by rw [hcp]; exact List.mem_cons_self _ _)
    have hA : p0 ∉ A := fun hp => h (List.mem_cons.mpr (Or.inr hp))
    have hpre : (p0 :: pt).isPrefixOf (c :: (A ++ l)) = false := by
      by_contra hb
      have hb' : (p0 :: pt).isPrefixOf (c :: (A ++ l)) = true := by
        revert hb
        cases (p0 :: pt).isPrefixOf (c :: (A ++ l)) <;> simp
      rcases isPrefixOf_true_iff.mp hb' with ⟨t, ht⟩
      rw [List.cons_append] at ht
      injection ht with ht1 _
      exact hc ht1.symm
    show splitAux (p0 :: pt) ((c :: A) ++ l).length ((c :: A) ++ l) = _
    rw [List.cons_append]
    rw [show (c :: (A ++ l)).length = (A ++ l).length + 1 from rfl]
    simp only [splitAux]
    rw [if_neg (by simp [hpre])]
    rw [show splitAux (p0 :: pt) (A ++ l).length (A ++ l) =
        splitOnList (p0 :: pt) (A ++ l) from rfl]
    rw [ih hA, consHead_consHead]
    rfl

theorem splitOnList_match_head (p0 : Char) (pt t : List Char) :
    splitOnList (p0 :: pt) ((p0 :: pt) ++ t) = [] :: splitOnList (p0 :: pt) t := by
  have h1 : (p0 :: pt).isPrefixOf (p0 :: (pt ++ t)) = true :=
    isPrefixOf_true_iff.mpr ⟨t, rfl⟩
  show splitAux (p0 :: pt) ((p0 :: pt) ++ t).length ((p0 :: pt) ++ t) = _
  rw [List.cons_append]
  rw [show (p0 :: (pt ++ t)).length = (pt ++ t).length + 1 from rfl]
  simp only [splitAux]
  rw [if_pos (by simp [h1, List.isEmpty])]
  congr 1
  rw [show (p0 :: (pt ++ t)).drop (p0 :: pt).length = t from by
    rw [← List.cons_append, List.drop_left]]
  apply splitAux_fuel_irrel
  · rw [List.length_append]
    omega
  · exact Nat.le_refl _

theorem splitOnList_no_occurrence (pat l : List Char)
    (h : ¬ pat <:+: l) : splitOnList pat l = [l] := by
  induction l with
  | nil => simp [splitOnList, splitAux]
  | cons c cs ih =>
    have hcs : ¬ pat <:+: cs := fun hi => h (List.infix_cons hi)
    have hpre : pat.isPrefixOf (c :: cs) = false := by
      by_contra hb
      have hb' : pat.isPrefixOf (c :: cs) = true := by
        revert hb
        cases pat.isPrefixOf (c :: cs) <;> simp
      exact h (isPrefixOf_true_iff.mp hb').isInfix
    show splitAux pat (c :: cs).length (c :: cs) = _
    rw [show (c :: cs).length = cs.length + 1 from rfl]
    simp only [splitAux]
    rw [if_neg (by simp [hpre])]
    rw [show splitAux pat cs.length cs = splitOnList pat cs from rfl, ih hcs]
    simp [consHead]

theorem joinWithL_splitAux (pat : List Char) :
    ∀ f l, l.length ≤ f → joinWithL pat (splitAux pat f l) = l := by
  intro f
  induction f with
  | zero =>
    intro l h
    have : l = [] := List.eq_nil_of_length_eq_zero (Nat.le_zero.mp h)
    subst this
    simp [splitAux, joinWithL]
  | succ f ih =>
    intro l h
    cases l with
    | nil => simp [splitAux, joinWithL]
    | cons c cs =>
      simp only [splitAux]
      by_cases hg : (pat.isPrefixOf (c :: cs) && !pat.isEmpty) = true
      · rw [if_pos hg]
        rcases Bool.and_eq_true_iff.mp hg with ⟨hpre, hemp⟩
        rcases isPrefixOf_true_iff.mp hpre with ⟨t, ht⟩
        have hne : pat ≠ [] := by
          intro hnil
          rw [hnil] at hemp
          simp [List.isEmpty] at hemp
        have hlen : 1 ≤ pat.length := by
          cases pat with
          | nil => exact absurd rfl hne
          | cons p ps => simp
        have hdrop : (c :: cs).drop pat.length = t := by
          rw [← ht, List.drop_left]
        rw [hdrop]
        have htlen : t.length ≤ f := by
          have hl2 : (c :: cs).length = pat.length + t.length := by
            rw [← ht, List.length_append]
          simp only [List.length_cons] at h hl2
          omega
        obtain ⟨x, xs, hx⟩ : ∃ x xs, splitAux pat f t = x :: xs := by
          cases hsp : splitAux pat f t with
          | nil => exact absurd hsp (splitAux_ne_nil pat f t)
          | cons x xs => exact ⟨x, xs, rfl⟩
        have hjoin := ih t htlen
        rw [hx] at hjoin ⊢
        rw [show joinWithL pat ([] :: x :: xs) =
            [] ++ pat ++ joinWithL pat (x :: xs) from rfl]
        rw [hjoin, List.nil_append, ht]
      · rw [if_neg hg]
        rw [joinWithL_consHead pat [c] _ (splitAux_ne_nil pat f cs)]
        have : cs.length ≤ f := by
          simp only [List.length_cons] at h
          omega
        rw [ih cs this]
        rfl

theorem joinWithL_splitOnList (pat l : List Char) :
    joinWithL pat (splitOnList pat l) = l :=
  joinWithL_splitAux pat l.length l (Nat.le_refl _)

theorem joinParts_map_mk (l : List (List Char)) :
    joinParts (l.map String.mk) = String.mk l.flatten := by
  induction l with
  | nil => rfl
  | cons a as ih =>
    rw [List.map_cons, joinParts, ih]
    rfl

theorem flatten_withSep (sep : List Char) (l : List (List Char)) :
    (withSep sep l).flatten = joinWithL sep l := by
  induction l with
  | nil => rfl
  | cons x xs ih =>
    cases xs with
    | nil => simp [withSep, joinWithL]
    | cons y ys =>
      rw [show withSep sep (x :: y :: ys) = x :: sep :: withSep sep (y :: ys) from rfl]
      rw [show (x :: sep :: withSep sep (y :: ys)).flatten =
          x ++ (sep ++ (withSep sep (y :: ys)).flatten) from by
        simp [List.flatten]]
      rw [ih]
      rw [show joinWithL sep (x :: y :: ys) =
          x ++ sep ++ joinWithL sep (y :: ys) from rfl]
      simp [List.append_assoc]

theorem joinParts_reSplitCapture (pat s : String) :
    joinParts (reSplitCapture pat s) = s := by
  rw [reSplitCapture, joinParts_map_mk, flatten_withSep, joinWithL_splitOnList]

theorem strReplace_no_occurrence (s pat rep : String)
    (h : ¬ pat.data <:+: s.data) : strReplace s pat rep = s := by
  rw [strReplace, splitOnList_no_occurrence pat.data s.data h]
  exact mk_eq _ _ rfl

/-! ## Claims about per-domain rendering -/

/-- The template of spec section 8 used by C4 and C5. -/
def T4 : String :=
  "$HOSTNAME|$ROOT|$SSL_KEY|$SSL_CERTIFICATE\n# ADDITIONAL DIRECTIVES HERE\ntail"

theorem substStep1 : strReplace T4 "$HOSTNAME" "example.com" =
    "example.com|$ROOT|$SSL_KEY|$SSL_CERTIFICATE\n# ADDITIONAL DIRECTIVES HERE\ntail" := by
  decide

theorem substStep2 (root : String) :
    strReplace
      "example.com|$ROOT|$SSL_KEY|$SSL_CERTIFICATE\n# ADDITIONAL DIRECTIVES HERE\ntail"
      "$ROOT" root =
    "example.com|" ++ root ++
      "|$SSL_KEY|$SSL_CERTIFICATE\n# ADDITIONAL DIRECTIVES HERE\ntail" := by
  rw [strReplace]
  rw [show splitOnList ("$ROOT" : String).data
      ("example.com|$ROOT|$SSL_KEY|$SSL_CERTIFICATE\n# ADDITIONAL DIRECTIVES HERE\ntail" : String).data =
      [("example.com|" : String).data,
       ("|$SSL_KEY|$SSL_CERTIFICATE\n# ADDITIONAL DIRECTIVES HERE\ntail" : String).data] from by
    decide]
  apply mk_eq
  simp [joinWithL, data_append, List.append_assoc]

theorem substStep3 (root key : String) (hr : '$' ∉ root.data) :
    strReplace
      ("example.com|" ++ root ++
        "|$SSL_KEY|$SSL_CERTIFICATE\n# ADDITIONAL DIRECTIVES HERE\ntail")
      "$SSL_KEY" key =
    "example.com|" ++ root ++ "|" ++ key ++
      "|$SSL_CERTIFICATE\n# ADDITIONAL DIRECTIVES HERE\ntail" := by
  rw [strReplace]
  rw [show ("example.com|" ++ root ++
      "|$SSL_KEY|$SSL_CERTIFICATE\n# ADDITIONAL DIRECTIVES HERE\ntail" : String).data =
      ("example.com|" : String).data ++ (root.data ++
        ("|$SSL_KEY|$SSL_CERTIFICATE\n# ADDITIONAL DIRECTIVES HERE\ntail" : String).data) from by
    simp [data_append, List.append_assoc]]
  rw [show ("$SSL_KEY" : String).data = '$' :: ("SSL_KEY" : String).data from rfl]
  rw [splitOnList_append_left '$' _ _ _
    (by decide : '$' ∉ ("example.com|" : String).data)]
  rw [splitOnList_append_left '$' _ _ _ hr]
  rw [show splitOnList ('$' :: ("SSL_KEY" : String).data)
      ("|$SSL_KEY|$SSL_CERTIFICATE\n# ADDITIONAL DIRECTIVES HERE\ntail" : String).data =
      [("|" : String).data,
       ("|$SSL_CERTIFICATE\n# ADDITIONAL DIRECTIVES HERE\ntail" : String).data] from by
    decide]
  simp only [consHead]
  apply mk_eq
  simp [joinWithL, data_append, List.append_assoc]

theorem substStep4 (root key cert : String) (hr : '$' ∉ root.data)
    (hk : '$' ∉ key.data) :
    strReplace
      ("example.com|" ++ root ++ "|" ++ key ++
        "|$SSL_CERTIFICATE\n# ADDITIONAL DIRECTIVES HERE\ntail")
      "$SSL_CERTIFICATE" cert =
    "example.com|" ++ root ++ "|" ++ key ++ "|" ++ cert ++
      "\n# ADDITIONAL DIRECTIVES HERE\ntail" := by
  rw [strReplace]
  rw [show ("example.com|" ++ root ++ "|" ++ key ++
      "|$SSL_CERTIFICATE\n# ADDITIONAL DIRECTIVES HERE\ntail" : String).data =
      ("example.com|" : String).data ++ (root.data ++ (("|" : String).data ++ (key.data ++
        ("|$SSL_CERTIFICATE\n# ADDITIONAL DIRECTIVES HERE\ntail" : String).data))) from by
    simp [data_append, List.append_assoc]]
  rw [show ("$SSL_CERTIFICATE" : String).data =
      '$' :: ("SSL_CERTIFICATE" : String).data from rfl]
  rw [splitOnList_append_left '$' _ _ _
    (by decide : '$' ∉ ("example.com|" : String).data)]
  rw [splitOnList_append_left '$' _ _ _ hr]
  rw [splitOnList_append_left '$' _ _ _ (by decide : '$' ∉ ("|" : String).data)]
  rw [splitOnList_append_left '$' _ _ _ hk]
  rw [show splitOnList ('$' :: ("SSL_CERTIFICATE" : String).data)
      ("|$SSL_CERTIFICATE\n# ADDITIONAL DIRECTIVES HERE\ntail" : String).data =
      [("|" : String).data,
       ("\n# ADDITIONAL DIRECTIVES HERE\ntail" : String).data] from by
    decide]
  simp only [consHead]
  apply mk_eq
  simp [joinWithL, data_append, List.append_assoc]

theorem substTemplate_T4 (env : Env) (w : World)
    (hr : '$' ∉ (get_web_root "example.com" env w).data)
    (hk : '$' ∉ (get_domain_ssl_files "example.com" env w).1.data) :
    substTemplate "example.com" T4 env w =
      "example.com|" ++ get_web_root "example.com" env w ++ "|" ++
      (get_domain_ssl_files "example.com" env w).1 ++ "|" ++
      (get_domain_ssl_files "example.com" env w).2.1 ++
      "\n# ADDITIONAL DIRECTIVES HERE\ntail" := by
  show strReplace (strReplace (strReplace (strReplace T4 "$HOSTNAME" "example.com")
      "$ROOT" (get_web_root "example.com" env w))
      "$SSL_KEY" (get_domain_ssl_files "example.com" env w).1)
      "$SSL_CERTIFICATE" (get_domain_ssl_files "example.com" env w).2.1 = _
  rw [substStep1, substStep2, substStep3 _ _ hr, substStep4 _ _ _ hr hk]

theorem reSplitCapture_no_occurrence (pat s : String)
    (h : ¬ pat.data <:+: s.data) : reSplitCapture pat s = [s] := by
  rw [reSplitCapture, splitOnList_no_occurrence _ _ h]
  rw [show withSep pat.data [s.data] = [s.data] from rfl]
  rw [show ([s.data]).map String.mk = [String.mk s.data] from rfl]

theorem reSplit_T4_parts (root key cert : String) (hr : '#' ∉ root.data)
    (hk : '#' ∉ key.data) (hc : '#' ∉ cert.data) :
    reSplitCapture directivesMarker
      ("example.com|" ++ root ++ "|" ++ key ++ "|" ++ cert ++
        "\n# ADDITIONAL DIRECTIVES HERE\ntail") =
    ["example.com|" ++ root ++ "|" ++ key ++ "|" ++ cert ++ "\n",
     directivesMarker, "tail"] := by
  rw [reSplitCapture]
  rw [show ("example.com|" ++ root ++ "|" ++ key ++ "|" ++ cert ++
      "\n# ADDITIONAL DIRECTIVES HERE\ntail" : String).data =
      ("example.com|" : String).data ++ (root.data ++ (("|" : String).data ++ (key.data ++
        (("|" : String).data ++ (cert.data ++
          ("\n# ADDITIONAL DIRECTIVES HERE\ntail" : String).data))))) from by
    simp [data_append, List.append_assoc]]
  rw [show directivesMarker.data =
      '#' :: (" ADDITIONAL DIRECTIVES HERE\n" : String).data from rfl]
  rw [splitOnList_append_left '#' _ _ _
    (by decide : '#' ∉ ("example.com|" : String).data)]
  rw [splitOnList_append_left '#' _ _ _ hr]
  rw [splitOnList_append_left '#' _ _ _ (by decide : '#' ∉ ("|" : String).data)]
  rw [splitOnList_append_left '#' _ _ _ hk]
  rw [splitOnList_append_left '#' _ _ _ (by decide : '#' ∉ ("|" : String).data)]
  rw [splitOnList_append_left '#' _ _ _ hc]
  rw [show splitOnList ('#' :: (" ADDITIONAL DIRECTIVES HERE\n" : String).data)
      ("\n# ADDITIONAL DIRECTIVES HERE\ntail" : String).data =
      [("\n" : String).data, ("tail" : String).data] from by decide]
  simp only [consHead]
  rw [show withSep ('#' :: (" ADDITIONAL DIRECTIVES HERE\n" : String).data)
      [("example.com|" : String).data ++ (root.data ++ (("|" : String).data ++ (key.data ++
        (("|" : String).data ++ (cert.data ++ ("\n" : String).data))))),
       ("tail" : String).data] =
      [("example.com|" : String).data ++ (root.data ++ (("|" : String).data ++ (key.data ++
        (("|" : String).data ++ (cert.data ++ ("\n" : String).data))))),
       '#' :: (" ADDITIONAL DIRECTIVES HERE\n" : String).data,
       ("tail" : String).data] from rfl]
  have h1 : String.mk (("example.com|" : String).data ++ (root.data ++
      (("|" : String).data ++ (key.data ++ (("|" : String).data ++ (cert.data ++
        ("\n" : String).data)))))) =
      "example.com|" ++ root ++ "|" ++ key ++ "|" ++ cert ++ "\n" := by
    apply mk_eq
    simp [data_append, List.append_assoc]
  rw [show List.map String.mk
      [("example.com|" : String).data ++ (root.data ++ (("|" : String).data ++ (key.data ++
        (("|" : String).data ++ (cert.data ++ ("\n" : String).data))))),
       '#' :: (" ADDITIONAL DIRECTIVES HERE\n" : String).data,
       ("tail" : String).data] =
      [String.mk (("example.com|" : String).data ++ (root.data ++ (("|" : String).data ++
        (key.data ++ (("|" : String).data ++ (cert.data ++ ("\n" : String).data)))))),
       String.mk ('#' :: (" ADDITIONAL DIRECTIVES HERE\n" : String).data),
       String.mk (("tail" : String).data)] from rfl]
  rw [h1, mk_eq ('#' :: (" ADDITIONAL DIRECTIVES HERE\n" : String).data) directivesMarker rfl,
    mk_eq (("tail" : String).data) "tail" rfl]

/-- C4: with the spec template and domain example.com and no overlay entry
for that domain, `make_domain_config` returns exactly the template with the
four substitutions applied: nothing is inserted and the tail is unchanged.
The resolved root and key paths are assumed free of the placeholder
character. -/
theorem make_domain_config_no_overlay (env : Env) (w : World)
    (hov : overlay_entry env w "example.com" = none)
    (hr : '$' ∉ (get_web_root "example.com" env w).data)
    (hk : '$' ∉ (get_domain_ssl_files "example.com" env w).1.data) :
    make_domain_config "example.com" T4 env w =
      some ("example.com|" ++ get_web_root "example.com" env w ++ "|" ++
        (get_domain_ssl_files "example.com" env w).1 ++ "|" ++
        (get_domain_ssl_files "example.com" env w).2.1 ++
        "\n# ADDITIONAL DIRECTIVES HERE\ntail",
        ensure_ssl_certificate_exists "example.com"
          (get_domain_ssl_files "example.com" env w).1
          (get_domain_ssl_files "example.com" env w).2.1
          (get_domain_ssl_files "example.com" env w).2.2 env w) := by
  simp only [make_domain_config, hov]
  rw [joinParts_reSplitCapture, substTemplate_T4 env w hr hk]

/-- C5: with the spec template and an overlay mapping example.com to a proxy
target, `make_domain_config` inserts the reverse-proxy block referencing the
target immediately after the marker line and before the tail; the rest is the
template with the four substitutions applied.  The resolved paths are assumed
free of the placeholder and marker characters. -/
theorem make_domain_config_with_proxy (env : Env) (w : World)
    (hov : overlay_entry env w "example.com" =
      some (Yaml.dict [("proxy", Yaml.str "http://localhost:8080")]))
    (hr : '$' ∉ (get_web_root "example.com" env w).data)
    (hk : '$' ∉ (get_domain_ssl_files "example.com" env w).1.data)
    (hr2 : '#' ∉ (get_web_root "example.com" env w).data)
    (hk2 : '#' ∉ (get_domain_ssl_files "example.com" env w).1.data)
    (hc2 : '#' ∉ (get_domain_ssl_files "example.com" env w).2.1.data) :
    make_domain_config "example.com" T4 env w =
      some ("example.com|" ++ get_web_root "example.com" env w ++ "|" ++
        (get_domain_ssl_files "example.com" env w).1 ++ "|" ++
        (get_domain_ssl_files "example.com" env w).2.1 ++ "\n" ++
        directivesMarker ++ proxyBlock "http://localhost:8080" ++ "tail",
        ensure_ssl_certificate_exists "example.com"
          (get_domain_ssl_files "example.com" env w).1
          (get_domain_ssl_files "example.com" env w).2.1
          (get_domain_ssl_files "example.com" env w).2.2 env w) := by
  simp only [make_domain_config, hov, Yaml.lookupKey, lookupEntries, if_pos]
  rw [substTemplate_T4 env w hr hk]
  rw [reSplit_T4_parts _ _ _ hr2 hk2 hc2]
  rw [dif_pos (by simp)]
  simp only [List.get, List.set, joinParts, Yaml.toStr]
  rw [String.append_empty]
  simp [String.append_assoc]

/-- C10: when an overlay proxy entry applies but the substituted template
does not contain the marker line, `make_domain_config` fails (the Python code
raises IndexError); when no overlay proxy entry applies — the overlay file is
missing or has no entry for the domain, or its entry has no proxy field — the
substituted template is returned unchanged, whether or not it contains the
marker. -/
theorem make_domain_config_marker_cases (domain template : String) (env : Env)
    (w : World) :
    (∀ entry p, overlay_entry env w domain = some entry →
      entry.lookupKey "proxy" = some p →
      ¬ directivesMarker.data <:+: (substTemplate domain template env w).data →
      make_domain_config domain template env w = none) ∧
    (overlay_entry env w domain = none →
      make_domain_config domain template env w =
        some (substTemplate domain template env w,
          ensure_ssl_certificate_exists domain
            (get_domain_ssl_files domain env w).1
            (get_domain_ssl_files domain env w).2.1
            (get_domain_ssl_files domain env w).2.2 env w)) ∧
    (∀ entry, overlay_entry env w domain = some entry →
      entry.lookupKey "proxy" = none →
      make_domain_config domain template env w =
        some (substTemplate domain template env w,
          ensure_ssl_certificate_exists domain
            (get_domain_ssl_files domain env w).1
            (get_domain_ssl_files domain env w).2.1
            (get_domain_ssl_files domain env w).2.2 env w)) := by
  refine ⟨?_, ?_, ?_⟩
  · intro entry p hov hp hno
    simp only [make_domain_config, hov, hp]
    rw [reSplitCapture_no_occurrence _ _ hno]
    rw [dif_neg (by simp)]
  · intro hov
    simp only [make_domain_config, hov]
    rw [joinParts_reSplitCapture]
  · intro entry hov hp
    simp only [make_domain_config, hov, hp]
    rw [joinParts_reSplitCapture]

/-- Witness for C4 at a concrete input. -/
theorem make_domain_config_no_overlay_witness :
    make_domain_config "example.com" T4 envA wA =
      some ("example.com|" ++ get_web_root "example.com" envA wA ++ "|" ++
        (get_domain_ssl_files "example.com" envA wA).1 ++ "|" ++
        (get_domain_ssl_files "example.com" envA wA).2.1 ++
        "\n# ADDITIONAL DIRECTIVES HERE\ntail",
        ensure_ssl_certificate_exists "example.com"
          (get_domain_ssl_files "example.com" envA wA).1
          (get_domain_ssl_files "example.com" envA wA).2.1
          (get_domain_ssl_files "example.com" envA wA).2.2 envA wA) :=
  make_domain_config_no_overlay envA wA rfl (by decide) (by decide)

/-- Concrete world with an overlay file mapping example.com to a proxy
target, used by the C5 and C10 witnesses. -/
def wD : World :=
  ⟨fun p => if p = "st/www/custom.yaml" then some "overlay" else none,
   fun d => d, fun _ _ => "OK",
   fun _ => Yaml.dict
     [("example.com", Yaml.dict [("proxy", Yaml.str "http://localhost:8080")])]⟩

/-- Witness for C5 at a concrete input. -/
theorem make_domain_config_with_proxy_witness :
    make_domain_config "example.com" T4 envA wD =
      some ("example.com|" ++ get_web_root "example.com" envA wD ++ "|" ++
        (get_domain_ssl_files "example.com" envA wD).1 ++ "|" ++
        (get_domain_ssl_files "example.com" envA wD).2.1 ++ "\n" ++
        directivesMarker ++ proxyBlock "http://localhost:8080" ++ "tail",
        ensure_ssl_certificate_exists "example.com"
          (get_domain_ssl_files "example.com" envA wD).1
          (get_domain_ssl_files "example.com" envA wD).2.1
          (get_domain_ssl_files "example.com" envA wD).2.2 envA wD) :=
  make_domain_config_with_proxy envA wD rfl (by decide) (by decide) (by decide)
    (by decide) (by decide)

/-- Concrete world whose overlay has an entry for example.com without a
proxy field, used by the C10 witness. -/
def wE : World :=
  ⟨fun p => if p = "st/www/custom.yaml" then some "overlay" else none,
   fun d => d, fun _ _ => "OK",
   fun _ => Yaml.dict [("example.com", Yaml.dict [("note", Yaml.str "x")])]⟩

/-- Witness for C10 at concrete inputs: a template with no marker and an
overlay proxy entry make `make_domain_config` fail, while an overlay entry
without a proxy field leaves the substituted template unchanged. -/
theorem make_domain_config_marker_cases_witness :
    make_domain_config "example.com" "plain" envA wD = none ∧
    make_domain_config "example.com" "plain" envA wE =
      some (substTemplate "example.com" "plain" envA wE,
        ensure_ssl_certificate_exists "example.com"
          (get_domain_ssl_files "example.com" envA wE).1
          (get_domain_ssl_files "example.com" envA wE).2.1
          (get_domain_ssl_files "example.com" envA wE).2.2 envA wE) :=
  ⟨(make_domain_config_marker_cases "example.com" "plain" envA wD).1
      (Yaml.dict [("proxy", Yaml.str "http://localhost:8080")])
      (Yaml.str "http://localhost:8080") rfl rfl (by decide),
   (make_domain_config_marker_cases "example.com" "plain" envA wE).2.2
      (Yaml.dict [("note", Yaml.str "x")]) rfl rfl⟩

/-! ## Claims about the full update (do_web_update) -/

/-- Recognizer for the events C3 counts: a configuration-file write or an
invocation of the service-control binary (the reload). -/
def isWriteOrReload (e : Event) : Bool :=
  match e with
  | .write _ _ => true
  | .shell ("/usr/sbin/service" :: _) => true
  | _ => false

theorem ensure_events_clean (domain k c csr : String) (env : Env) (w : World) :
    (ensure_ssl_certificate_exists domain k c csr env w).filter isWriteOrReload = [] := by
  unfold ensure_ssl_certificate_exists
  split_ifs <;> rfl

theorem make_domain_config_events (domain template : String) (env : Env) (w : World) :
    make_domain_config domain template env w = none ∨
    ∃ s, make_domain_config domain template env w =
      some (s, ensure_ssl_certificate_exists domain
        (get_domain_ssl_files domain env w).1
        (get_domain_ssl_files domain env w).2.1
        (get_domain_ssl_files domain env w).2.2 env w) := by
  cases hov : overlay_entry env w domain with
  | none =>
    refine Or.inr
      ⟨joinParts (reSplitCapture directivesMarker (substTemplate domain template env w)), ?_⟩
    simp only [make_domain_config, hov]
  | some entry =>
    cases hp : entry.lookupKey "proxy" with
    | none =>
      refine Or.inr
        ⟨joinParts (reSplitCapture directivesMarker (substTemplate domain template env w)), ?_⟩
      simp only [make_domain_config, hov, hp]
    | some p =>
      by_cases hlen : 1 <
          (reSplitCapture directivesMarker (substTemplate domain template env w)).length
      · refine Or.inr
          ⟨joinParts ((reSplitCapture directivesMarker (substTemplate domain template env w)).set 1
            ((reSplitCapture directivesMarker (substTemplate domain template env w)).get
              ⟨1, hlen⟩ ++ proxyBlock p.toStr)), ?_⟩
        simp only [make_domain_config, hov, hp]
        exact dif_pos hlen
      · refine Or.inl ?_
        simp only [make_domain_config, hov, hp]
        exact dif_neg hlen

theorem make_domain_config_events_clean (domain template : String) (env : Env)
    (w : World) (r : String × List Event)
    (h : make_domain_config domain template env w = some r) :
    r.2.filter isWriteOrReload = [] := by
  rcases make_domain_config_events domain template env w with hn | ⟨s, hs⟩
  · rw [hn] at h
    exact Option.noConfusion h
  · rw [hs] at h
    injection h with h
    rw [← h]
    exact ensure_events_clean domain _ _ _ env w

theorem foldl_buildStep_clean (env : Env) (w : World) (template : String) :
    ∀ (doms : List String) (acc : String × List Event),
      acc.2.filter isWriteOrReload = [] →
      ∀ r, List.foldlM (buildStep env w template) acc doms = some r →
        r.2.filter isWriteOrReload = [] := by
  intro doms
  induction doms with
  | nil =>
    intro acc hacc r h
    simp only [List.foldlM_nil] at h
    injection h with h
    rw [← h]
    exact hacc
  | cons d ds ih =>
    intro acc hacc r h
    rw [List.foldlM_cons] at h
    cases hmc : buildStep env w template acc d with
    | none =>
      rw [hmc] at h
      exact Option.noConfusion h
    | some acc1 =>
      rw [hmc] at h
      rw [show (some acc1 >>= fun acc2 =>
          List.foldlM (buildStep env w template) acc2 ds) =
          List.foldlM (buildStep env w template) acc1 ds from rfl] at h
      refine ih acc1 ?_ r h
      unfold buildStep at hmc
      cases hm : make_domain_config d template env w with
      | none =>
        rw [hm] at hmc
        exact Option.noConfusion hmc
      | some pr =>
        obtain ⟨s, ev2⟩ := pr
        rw [hm] at hmc
        injection hmc with hmc
        rw [← hmc]
        show (acc.2 ++ ev2).filter isWriteOrReload = []
        rw [List.filter_append, hacc,
          make_domain_config_events_clean d template env w (s, ev2) hm]
        rfl

theorem build_events_clean (env : Env) (mail_domains : List String)
    (dns : List (String × DNSValue)) (w : World) (conf : String) (ev : List Event)
    (h : build_nginx_conf env mail_domains dns w = some (conf, ev)) :
    ev.filter isWriteOrReload = [] := by
  unfold build_nginx_conf at h
  cases ht : w.files "conf/nginx-top.conf" with
  | none =>
    rw [ht] at h
    exact Option.noConfusion h
  | some top =>
    cases htm : w.files "conf/nginx.conf" with
    | none =>
      rw [ht, htm] at h
      exact Option.noConfusion h
    | some template =>
      rw [ht, htm] at h
      exact foldl_buildStep_clean env w template _ (top, []) rfl (conf, ev) h

/-! Paths the build reads are never the persisted configuration path. -/

theorem ne_conf_chunk_mid (a k b : String) (hk : ¬ k.data <:+: nginxConfFn.data) :
    a ++ (k ++ b) ≠ nginxConfFn := by
  intro h
  apply hk
  rw [← h]
  exact ⟨a.data, b.data, by simp [data_append, List.append_assoc]⟩

theorem ne_conf_chunk_end (a b k : String) (hk : ¬ k.data <:+: nginxConfFn.data) :
    a ++ (b ++ k) ≠ nginxConfFn := by
  intro h
  apply hk
  rw [← h]
  exact ⟨a.data ++ b.data, [], by simp [data_append, List.append_assoc]⟩

theorem ne_conf_chunk_two (a k : String) (hk : ¬ k.data <:+: nginxConfFn.data) :
    a ++ k ≠ nginxConfFn := by
  intro h
  apply hk
  rw [← h]
  exact ⟨a.data, [], by simp [data_append]⟩

theorem pjoin_ne_conf_mid (a k b : String) (hk : ¬ k.data <:+: nginxConfFn.data) :
    pjoin a (k ++ b) ≠ nginxConfFn :=
  ne_conf_chunk_mid (a ++ "/") k b hk

theorem pjoin_ne_conf_end (a b k : String) (hk : ¬ k.data <:+: nginxConfFn.data) :
    pjoin a (b ++ k) ≠ nginxConfFn :=
  ne_conf_chunk_end (a ++ "/") b k hk

theorem pjoin_ne_conf_lit (a k : String) (hk : ¬ k.data <:+: nginxConfFn.data) :
    pjoin a k ≠ nginxConfFn :=
  ne_conf_chunk_two (a ++ "/") k hk

/-- Agreement of two worlds everywhere except the persisted configuration
path (and equality of the non-filesystem collaborators). -/
def agreeOffConf (w w2 : World) : Prop :=
  w2.safe_domain_name = w.safe_domain_name ∧
  w2.check_certificate = w.check_certificate ∧
  w2.load_yaml = w.load_yaml ∧
  ∀ p, p ≠ nginxConfFn → w2.files p = w.files p

theorem get_web_root_congr (domain : String) (env : Env) {w w2 : World}
    (hag : agreeOffConf w w2) :
    get_web_root domain env w2 = get_web_root domain env w := by
  obtain ⟨hs, _, _, hf⟩ := hag
  simp only [get_web_root]
  rw [hs]
  rw [hf _ (pjoin_ne_conf_mid env.STORAGE_ROOT "www/"
    (w.safe_domain_name domain) (by decide))]

theorem get_domain_ssl_files_congr (domain : String) (env : Env) {w w2 : World}
    (hag : agreeOffConf w w2) :
    get_domain_ssl_files domain env w2 = get_domain_ssl_files domain env w := by
  obtain ⟨hs, hc, _, hf⟩ := hag
  simp only [get_domain_ssl_files]
  rw [hs, hc]
  rw [hf _ (pjoin_ne_conf_end env.STORAGE_ROOT
    ("ssl/" ++ w.safe_domain_name domain) "/private_key.pem" (by decide))]

theorem get_domain_ssl_files_cert_ne_conf (domain : String) (env : Env) (w : World) :
    (get_domain_ssl_files domain env w).2.1 ≠ nginxConfFn := by
  simp only [get_domain_ssl_files]
  split_ifs <;>
    first
      | exact pjoin_ne_conf_lit env.STORAGE_ROOT "ssl/ssl_certificate.pem" (by decide)
      | exact pjoin_ne_conf_end env.STORAGE_ROOT
          ("ssl/" ++ w.safe_domain_name domain) "/ssl_certificate.pem" (by decide)

theorem overlay_entry_congr (domain : String) (env : Env) {w w2 : World}
    (hag : agreeOffConf w w2) :
    overlay_entry env w2 domain = overlay_entry env w domain := by
  obtain ⟨_, _, hl, hf⟩ := hag
  unfold overlay_entry
  rw [hl, hf _ (pjoin_ne_conf_lit env.STORAGE_ROOT "www/custom.yaml" (by decide))]

theorem substTemplate_congr (domain template : String) (env : Env) {w w2 : World}
    (hag : agreeOffConf w w2) :
    substTemplate domain template env w2 = substTemplate domain template env w := by
  simp only [substTemplate]
  rw [get_web_root_congr domain env hag, get_domain_ssl_files_congr domain env hag]

theorem ensure_congr (domain k c csr : String) (env : Env) {w w2 : World}
    (hag : agreeOffConf w w2) (hc : c ≠ nginxConfFn) :
    ensure_ssl_certificate_exists domain k c csr env w2 =
      ensure_ssl_certificate_exists domain k c csr env w := by
  obtain ⟨_, _, _, hf⟩ := hag
  unfold ensure_ssl_certificate_exists
  rw [hf _ hc]

theorem make_domain_config_congr (domain template : String) (env : Env)
    {w w2 : World} (hag : agreeOffConf w w2) :
    make_domain_config domain template env w2 = make_domain_config domain template env w := by
  simp only [make_domain_config]
  rw [get_domain_ssl_files_congr domain env hag,
    overlay_entry_congr domain env hag,
    substTemplate_congr domain template env hag,
    ensure_congr domain _ _ _ env hag (get_domain_ssl_files_cert_ne_conf domain env w)]

theorem build_nginx_conf_congr (env : Env) (mail_domains : List String)
    (dns : List (String × DNSValue)) {w w2 : World} (hag : agreeOffConf w w2) :
    build_nginx_conf env mail_domains dns w2 = build_nginx_conf env mail_domains dns w := by
  unfold build_nginx_conf
  rw [hag.2.2.2 _ (by decide), hag.2.2.2 _ (by decide)]
  cases w.files "conf/nginx-top.conf" <;> cases w.files "conf/nginx.conf" <;> try rfl
  next top template =>
    have hstep : buildStep env w2 template = buildStep env w template := by
      funext acc d
      unfold buildStep
      rw [make_domain_config_congr d template env hag]
    show List.foldlM (buildStep env w2 template) (top, [])
        (get_web_domains env mail_domains dns) =
      List.foldlM (buildStep env w template) (top, [])
        (get_web_domains env mail_domains dns)
    rw [hstep]

theorem applyEvents_clean : ∀ (evs : List Event) (w : World),
    evs.filter isWriteOrReload = [] → applyEvents w evs = w := by
  intro evs
  induction evs with
  | nil => intro w _; rfl
  | cons e es ih =>
    intro w h
    cases hfe : isWriteOrReload e with
    | true =>
      rw [List.filter_cons_of_pos hfe] at h
      exact absurd h (List.cons_ne_nil _ _)
    | false =>
      rw [List.filter_cons_of_neg (by rw [hfe]; exact Bool.false_ne_true)] at h
      have happ : applyEvent w e = w := by
        cases e with
        | write p c => simp [isWriteOrReload] at hfe
        | mkdirs p => rfl
        | shell args => rfl
      rw [show applyEvents w (e :: es) = applyEvents (applyEvent w e) es from rfl, happ]
      exact ih w h

theorem applyEvents_write_reload (w : World) (bev : List Event) (conf : String)
    (hclean : bev.filter isWriteOrReload = []) :
    applyEvents w (bev ++ [Event.write nginxConfFn conf, reloadEvent]) =
      { w with files := fun q => if q = nginxConfFn then some conf else w.files q } := by
  show List.foldl applyEvent w (bev ++ [Event.write nginxConfFn conf, reloadEvent]) = _
  rw [List.foldl_append]
  rw [show List.foldl applyEvent w bev = w from applyEvents_clean bev w hclean]
  rfl

theorem agreeOffConf_update (w : World) (conf : String) :
    agreeOffConf w
      { w with files := fun q => if q = nginxConfFn then some conf else w.files q } :=
  ⟨rfl, rfl, rfl, fun _ hp => if_neg hp⟩

/-- C3: when the freshly built configuration text equals the persisted file,
`do_web_update` reports "" and performs no configuration write and no reload;
and after any call, running `do_web_update` again on the world updated by the
first-call effects is a no-op: it reports "" and performs no write and no
reload.  Hence two calls with unchanged inputs perform the write and reload
at most once, on the first call. -/
theorem do_web_update_idempotent (env : Env) (mail_domains : List String)
    (dns : List (String × DNSValue)) (w : World) (r : String) (ev : List Event)
    (h : do_web_update env mail_domains dns w = some (r, ev)) :
    (∀ conf bev, build_nginx_conf env mail_domains dns w = some (conf, bev) →
      w.files nginxConfFn = some conf →
      r = "" ∧ ev = bev ∧ ev.filter isWriteOrReload = []) ∧
    (∃ ev2, do_web_update env mail_domains dns (applyEvents w ev) = some ("", ev2) ∧
      ev2.filter isWriteOrReload = []) := by
  cases hb : build_nginx_conf env mail_domains dns w with
  | none =>
    simp only [do_web_update, hb] at h
    exact Option.noConfusion h
  | some pr =>
    obtain ⟨conf, bev⟩ := pr
    have hclean : bev.filter isWriteOrReload = [] :=
      build_events_clean env mail_domains dns w conf bev hb
    simp only [do_web_update, hb] at h
    cases hcur : w.files nginxConfFn with
    | some current =>
      simp only [hcur] at h
      by_cases heq : current = conf
      · rw [if_pos heq] at h
        injection h with h
        rw [Prod.mk.injEq] at h
        obtain ⟨h1, h2⟩ := h
        subst h1
        subst h2
        constructor
        · intro conf2 bev2 hb2 _
          injection hb2 with hb2
          rw [Prod.mk.injEq] at hb2
          obtain ⟨_, hbe⟩ := hb2
          exact ⟨rfl, hbe, hclean⟩
        · refine ⟨bev, ?_, hclean⟩
          rw [applyEvents_clean bev w hclean]
          simp only [do_web_update, hb, hcur]
          rw [if_pos heq]
      · rw [if_neg heq] at h
        injection h with h
        rw [Prod.mk.injEq] at h
        obtain ⟨h1, h2⟩ := h
        subst h1
        subst h2
        constructor
        · intro conf2 bev2 hb2 hf2
          injection hb2 with hb2
          rw [Prod.mk.injEq] at hb2
          obtain ⟨hc1, _⟩ := hb2
          injection hf2 with hf2
          exact absurd (hf2.trans hc1.symm) heq
        · rw [applyEvents_write_reload w bev conf hclean]
          have hag := agreeOffConf_update w conf
          have hb2 : build_nginx_conf env mail_domains dns
              { w with files := fun q => if q = nginxConfFn then some conf else w.files q } =
              some (conf, bev) := by
            rw [build_nginx_conf_congr env mail_domains dns hag, hb]
          refine ⟨bev, ?_, hclean⟩
          simp only [do_web_update, hb2]
          simp
    | none =>
      simp only [hcur] at h
      injection h with h
      rw [Prod.mk.injEq] at h
      obtain ⟨h1, h2⟩ := h
      subst h1
      subst h2
      constructor
      · intro conf2 bev2 _ hf2
        exact Option.noConfusion hf2
      · rw [applyEvents_write_reload w bev conf hclean]
        have hag := agreeOffConf_update w conf
        have hb2 : build_nginx_conf env mail_domains dns
            { w with files := fun q => if q = nginxConfFn then some conf else w.files q } =
            some (conf, bev) := by
          rw [build_nginx_conf_congr env mail_domains dns hag, hb]
        refine ⟨bev, ?_, hclean⟩
        simp only [do_web_update, hb2]
        simp

/-- C9: whenever `do_web_update` does not report "no changes", its effect
trace is the provisioning events (which contain no configuration write and no
reload) followed by exactly the write of the new configuration text to the
output path and then the nginx reload, in that order: the new text is
persisted before the reload is invoked, and a reload failure would leave the
written file in place. -/
theorem do_web_update_write_before_reload (env : Env) (mail_domains : List String)
    (dns : List (String × DNSValue)) (w : World) (r : String) (ev : List Event)
    (h : do_web_update env mail_domains dns w = some (r, ev)) (hr : r ≠ "") :
    r = "web updated\n" ∧
    ∃ conf bev, build_nginx_conf env mail_domains dns w = some (conf, bev) ∧
      bev.filter isWriteOrReload = [] ∧
      ev = bev ++ [Event.write nginxConfFn conf, reloadEvent] := by
  cases hb : build_nginx_conf env mail_domains dns w with
  | none =>
    simp only [do_web_update, hb] at h
    exact Option.noConfusion h
  | some pr =>
    obtain ⟨conf, bev⟩ := pr
    have hclean : bev.filter isWriteOrReload = [] :=
      build_events_clean env mail_domains dns w conf bev hb
    simp only [do_web_update, hb] at h
    cases hcur : w.files nginxConfFn with
    | some current =>
      simp only [hcur] at h
      by_cases heq : current = conf
      · rw [if_pos heq] at h
        injection h with h
        rw [Prod.mk.injEq] at h
        exact absurd h.1.symm hr
      · rw [if_neg heq] at h
        injection h with h
        rw [Prod.mk.injEq] at h
        obtain ⟨h1, h2⟩ := h
        exact ⟨h1.symm, conf, bev, rfl, hclean, h2.symm⟩
    | none =>
      simp only [hcur] at h
      injection h with h
      rw [Prod.mk.injEq] at h
      obtain ⟨h1, h2⟩ := h
      exact ⟨h1.symm, conf, bev, rfl, hclean, h2.symm⟩

/-- Concrete world used by the C3 and C9 witnesses: the two template files
exist, nothing else does. -/
def wW : World :=
  ⟨fun p => if p = "conf/nginx-top.conf" then some "T\n"
    else if p = "conf/nginx.conf" then some "$HOSTNAME\n" else none,
   fun d => d, fun _ _ => "OK", fun _ => Yaml.str ""⟩

/-- Witness for C3 at a concrete input: after a first call that wrote and
reloaded, the second call is a no-op. -/
theorem do_web_update_idempotent_witness :
    ∃ ev2, do_web_update envA [] []
        (applyEvents wW [Event.write nginxConfFn "T\nbox.example.com\n", reloadEvent]) =
        some ("", ev2) ∧
      ev2.filter isWriteOrReload = [] :=
  (do_web_update_idempotent envA [] [] wW "web updated\n"
    [Event.write nginxConfFn "T\nbox.example.com\n", reloadEvent] (by decide)).2

/-- Witness for C9 at a concrete input. -/
theorem do_web_update_write_before_reload_witness :
    ("web updated\n" : String) = "web updated\n" ∧
    ∃ conf bev, build_nginx_conf envA [] [] wW = some (conf, bev) ∧
      bev.filter isWriteOrReload = [] ∧
      ([Event.write nginxConfFn "T\nbox.example.com\n", reloadEvent] : List Event) =
        bev ++ [Event.write nginxConfFn conf, reloadEvent] :=
  do_web_update_write_before_reload envA [] [] wW "web updated\n"
    [Event.write nginxConfFn "T\nbox.example.com\n", reloadEvent] (by decide) (by decide)

end WebUpdate
